import Mathlib

/-!
Verification of the negotiation session engine (`backend/main.py`) of the
`closewire` repository.

The Python source is shallowly embedded: every definition below is a direct
translation of the corresponding Python function (same name where Lean
allows). Machine integers are modelled as `Int`/`Nat`; CPython `int(x)` on a
non-negative quotient is floor division, modelled by `Int.div` (truncation
toward zero, which coincides with floor on the non-negative values arising
here). Python float multiplications by decimal constants (`0.4`, `0.72`, …)
are modelled by exact rational arithmetic (`a * k / d` on integers); no claim
below depends on double-precision rounding dust.

Strings are handled as in the source: `str.lower()` is `Char.toLower`
mapping, `str.strip()` is `pyStrip`, `x in s` is substring containment.
The regular expressions used by the offer extractors are small and concrete;
each one is compiled here by hand into an executable matcher with Python
`re.findall` / `re.search` semantics (leftmost, non-overlapping scan, greedy
quantifiers with the backtracking each concrete pattern actually needs).
-/

namespace Closewire

/-! ## Basic text utilities -/

/-- Python `str.lower()` on a string, as a character list (ASCII-faithful). -/
def lcList (s : String) : List Char :=
  s.toList.map Char.toLower

/-- Python `str.lower()` returning a `String`. -/
def lower (s : String) : String :=
  String.mk (lcList s)

/-- Word character in the sense of Python `re` `\w` / `\b` (ASCII input). -/
def isWordChar (c : Char) : Bool :=
  c.isAlphanum || c = '_'

/-- Does `needle` occur as a contiguous sublist of `hay`?  This is Python's
substring test `needle in hay`. -/
def listContains (hay needle : List Char) : Bool :=
  match hay with
  | [] => needle.isEmpty
  | _ :: tl => needle.isPrefixOf hay || listContains tl needle

/-- Python `needle in hay` on strings. -/
def strContains (hay needle : String) : Bool :=
  listContains hay.toList needle.toList

/-- `re.search(r"\b<phrase>\b", hay)` for a literal phrase that starts and
ends with a word character: an occurrence of `phrase` in `hay` whose
neighbouring characters (if any) are not word characters. `prev` is the
character immediately before the current scan position. -/
def containsWordBounded (phrase : List Char) : Option Char → List Char → Bool
  | _, [] => false
  | prev, c :: tl =>
    (match prev with
     | none => true
     | some p => !isWordChar p)
    && phrase.isPrefixOf (c :: tl)
    && (match (List.drop phrase.length (c :: tl)).head? with
        | none => true
        | some nxt => !isWordChar nxt)
    || containsWordBounded phrase (some c) tl

/-- Python truncating conversion `int(q)` for an exact quotient `a / b`
(CPython truncates toward zero; `Int.tdiv` is T-division). -/
def pyTrunc (a b : Int) : Int :=
  Int.tdiv a b

/-- Python `str.strip()` on a character list: drop leading whitespace, then
trailing whitespace (via reverse). -/
def stripChars (l : List Char) : List Char :=
  (((l.dropWhile Char.isWhitespace).reverse).dropWhile Char.isWhitespace).reverse

/-- Python `str.strip()`. -/
def pyStrip (s : String) : String :=
  String.mk (stripChars s.toList)

/-! ## Monetary regular-expression matchers (main.py 723-785)

The four concrete patterns of `extract_inr_amount` and
`_extract_all_offer_candidates` are compiled by hand into anchored matchers.
An anchored matcher receives the character immediately before the current
position (for `\b`) and the remaining input; on success it returns the
captured numeric value, the last consumed character and the rest of the
input. `findAll` then reproduces `re.findall`: scan left to right, take the
leftmost match, continue after it (non-overlapping). -/

/-- Successful anchored match: captured value, last consumed character,
remaining input. Every matcher consumes at least one character. -/
structure MatchOut (α : Type) where
  val : α
  last : Char
  rest : List Char
deriving Repr

/-- `re.findall` driver: try the anchored matcher at each position, restart
after each match. `fuel` bounds the recursion (each step consumes at least
one character, so `length + 1` fuel is always enough). -/
def findAllAux (m : Option Char → List Char → Option (MatchOut α)) :
    Nat → Option Char → List Char → List α
  | 0, _, _ => []
  | _ + 1, _, [] => []
  | fuel + 1, prev, c :: tl =>
    match m prev (c :: tl) with
    | some out => out.val :: findAllAux m fuel (some out.last) out.rest
    | none => findAllAux m fuel (some c) tl

/-- `re.findall(pattern, l)` for the anchored matcher `m`. -/
def findAll (m : Option Char → List Char → Option (MatchOut α)) (l : List Char) : List α :=
  findAllAux m (l.length + 1) none l

/-- Numeric value of a digit string. -/
def natOfDigits (ds : List Char) : Nat :=
  ds.foldl (fun a c => a * 10 + (c.toNat - '0'.toNat)) 0

/-- `int(float(<ds>.<fs>) * 100_000)` with exact rational arithmetic
(double rounding of CPython is not modelled; no claim exercises it). -/
def lakhValue (ds fs : List Char) : Nat :=
  natOfDigits (ds ++ fs) * 100000 / 10 ^ fs.length

/-- Anchored matcher for `(\d+(?:\.\d+)?)\s*(?:lakh|l\b)` (the lakh/L
shorthand, scaled by 100,000). -/
def matchLakhAt : Option Char → List Char → Option (MatchOut Nat) := fun _ l =>
  let ds := l.takeWhile Char.isDigit
  let r₁ := l.dropWhile Char.isDigit
  if ds.isEmpty then none
  else
    let fr : List Char × List Char :=
      match r₁ with
      | '.' :: t =>
        let fs := t.takeWhile Char.isDigit
        if fs.isEmpty then ([], r₁) else (fs, t.dropWhile Char.isDigit)
      | _ => ([], r₁)
    let fs := fr.1
    let r₃ := fr.2.dropWhile Char.isWhitespace
    match r₃ with
    | 'l' :: 'a' :: 'k' :: 'h' :: rest => some ⟨lakhValue ds fs, 'h', rest⟩
    | 'l' :: rest =>
      match rest.head? with
      | none => some ⟨lakhValue ds fs, 'l', rest⟩
      | some nxt => if isWordChar nxt then none else some ⟨lakhValue ds fs, 'l', rest⟩
    | _ => none

/-- Anchored matcher for `(?:₹|inr|rs\.?)\s*([0-9][0-9,]{m,10})`
(`m = 3` in `extract_inr_amount`, `m = 2` in
`_extract_all_offer_candidates`); commas are stripped from the capture. -/
def matchInrAt (minRep : Nat) : Option Char → List Char → Option (MatchOut Nat) := fun _ l =>
  let afterCur : Option (List Char) :=
    match l with
    | '₹' :: r => some r
    | 'i' :: 'n' :: 'r' :: r => some r
    | 'r' :: 's' :: '.' :: r => some r
    | 'r' :: 's' :: r => some r
    | _ => none
  match afterCur with
  | none => none
  | some r =>
    match r.dropWhile Char.isWhitespace with
    | c :: cs =>
      if c.isDigit then
        let run := (cs.takeWhile fun ch => ch.isDigit || ch = ',').take 10
        if run.length < minRep then none
        else some ⟨natOfDigits ((c :: run).filter Char.isDigit),
          run.getLastD c, cs.drop run.length⟩
      else none
    | [] => none

/-- Is there a `\b` between the last matched character and the next input
character (`none` = end of input)? -/
def boundaryOk (lastC : Char) (nxt : Option Char) : Bool :=
  match nxt with
  | none => isWordChar lastC
  | some n => isWordChar lastC != isWordChar n

/-- Greedy-with-backtracking tail for `[0-9,]{minRep,10}\b`: try the longest
tail first and shrink until the trailing word boundary holds. `c` is the
already-matched first digit, the tail is drawn from the digit/comma run at
the head of `cs`. -/
def pickTailLen (c : Char) (cs : List Char) (minRep : Nat) : Nat → Option (MatchOut Nat)
  | 0 => none
  | k + 1 =>
    if k + 1 < minRep then none
    else
      let tail := cs.take (k + 1)
      let lastC := tail.getLastD c
      if boundaryOk lastC (cs.drop (k + 1)).head? then
        some ⟨natOfDigits ((c :: tail).filter Char.isDigit), lastC, cs.drop (k + 1)⟩
      else pickTailLen c cs minRep k

/-- Anchored matcher for `\b(F[0-9,]{minRep,10})\b` where `F` is the class
of admissible first digits (`[0-9]` in `extract_inr_amount`, `[1-9]` in
`_extract_all_offer_candidates`). -/
def matchNumWordAt (firstOk : Char → Bool) (minRep : Nat) :
    Option Char → List Char → Option (MatchOut Nat) := fun prev l =>
  let prevOk : Bool :=
    match prev with
    | none => true
    | some p => !isWordChar p
  if !prevOk then none
  else
    match l with
    | c :: cs =>
      if firstOk c then
        let run := (cs.takeWhile fun ch => ch.isDigit || ch = ',').take 10
        pickTailLen c cs minRep run.length
      else none
    | [] => none

/-- Anchored matcher for `\$([0-9][0-9,]{2,10})`. -/
def matchUsdAt : Option Char → List Char → Option (MatchOut Nat) := fun _ l =>
  match l with
  | '$' :: r =>
    match r with
    | c :: cs =>
      if c.isDigit then
        let run := (cs.takeWhile fun ch => ch.isDigit || ch = ',').take 10
        if run.length < 2 then none
        else some ⟨natOfDigits ((c :: run).filter Char.isDigit),
          run.getLastD c, cs.drop run.length⟩
      else none
    | [] => none
  | _ => none

/-- Maximum of a candidate list (`max(values)`; 0 on the empty list, which
the source never reaches because it tests emptiness first). -/
def maxNat (l : List Nat) : Nat :=
  l.foldl max 0

/-- `extract_inr_amount` (main.py 723-745): cascade of lakh-shorthand,
currency-prefixed and bare-number patterns, each branch flooring its best
match at 1000; constant 4500 when nothing matches. -/
def extract_inr_amount (text : String) : Nat :=
  let raw := lcList text
  let lakh := findAll matchLakhAt raw
  if !lakh.isEmpty then max 1000 (maxNat lakh)
  else
    let cur := findAll (matchInrAt 3) raw
    if !cur.isEmpty then max 1000 (maxNat cur)
    else
      let gen := findAll (matchNumWordAt Char.isDigit 3) raw
      if !gen.isEmpty then max 1000 (maxNat gen)
      else 4500

/-- `_extract_all_offer_candidates` (main.py 748-785): full candidate set
from one utterance (lakh shorthand, INR-prefixed, bare large numbers above
5000, `$`-prefixed). -/
def _extract_all_offer_candidates (text : String) : List Nat :=
  let raw := lcList text
  findAll matchLakhAt raw
    ++ findAll (matchInrAt 2) raw
    ++ (findAll (matchNumWordAt (fun c => '1' ≤ c && c ≤ '9') 4) raw).filter
        (fun v => 5000 < v)
    ++ findAll matchUsdAt raw

/-! ## `_derive_financials` (main.py 788-805) -/

/-- The financial anchors derived at session start. -/
structure Financials where
  listed_fee : Nat
  student_budget : Nat
  counsellor_offer : Nat
  floor_offer : Nat
  student_opening : Nat
deriving DecidableEq, Repr

/-- `_derive_financials(program, persona)` (main.py 788-805), as a function
of the program's `program_fee_inr` text and the persona's
`willingness_to_invest_score`. The float products
(`0.75 + w/200`, `×1.10`, `×1.05`, `×0.72`, `×0.65`, `×0.80`) are modelled
by exact rational arithmetic with the truncating `int()`; all quantities
are non-negative, so `Nat` floor division matches. -/
def _derive_financials (program_fee_inr : String) (willingness_raw : Int) : Financials :=
  let listed_fee := extract_inr_amount program_fee_inr
  let willingness : Nat := (max 0 (min 100 willingness_raw)).toNat
  let student_budget := max 1000 (listed_fee * (150 + willingness) / 200)
  let counsellor_offer := max (listed_fee * 110 / 100) (student_budget * 105 / 100)
  let floor_offer := max (max (counsellor_offer * 72 / 100) (listed_fee * 65 / 100)) 1000
  let student_opening := max (student_budget * 80 / 100) 1000
  { listed_fee := listed_fee, student_budget := student_budget
    counsellor_offer := counsellor_offer, floor_offer := floor_offer
    student_opening := student_opening }

/-! ## Local negotiation-score computation (main.py 2660-2679) -/

/-- The locally computed negotiation score of `_judge_outcome`
(main.py 2660-2679): `int(0.4·likelihood + 0.3·finalTrust +
0.3·(100 − concessionScore))` plus a flat +10 bonus when the lower-cased
free-text winner contains "specialist" or "counsellor", capped at 100.
`finalTrust` is `trust_index + trust_delta` clamped to `[0, 100]`. -/
def negotiationScore (enrollment_likelihood trust_index concession_score trust_delta : Int)
    (winner : String) : Int :=
  let final_win_prob := enrollment_likelihood
  let final_trust := max 0 (min 100 (trust_index + trust_delta))
  let base_score := pyTrunc
    (final_win_prob * 4 + final_trust * 3 + (100 - concession_score) * 3) 10
  let w := lower winner
  let bonus := if strContains w "specialist" || strContains w "counsellor" then 10 else 0
  min 100 (base_score + bonus)

/-! ## Discount phrase search (main.py 2433) -/

/-- `([0-9][0-9,]{minRep,10})` anchored, greedy, no trailing boundary:
captured numeric value with commas stripped. -/
def matchNumPlain (minRep : Nat) (l : List Char) : Option Nat :=
  match l with
  | c :: cs =>
    if c.isDigit then
      let run := (cs.takeWhile fun ch => ch.isDigit || ch = ',').take 10
      if run.length < minRep then none
      else some (natOfDigits ((c :: run).filter Char.isDigit))
    else none
  | [] => none

/-- Ordered alternatives left by the optional group `(?:₹|inr|rs\.?)?`
(regex alternation order, then the empty option). -/
def currencyAlts (l : List Char) : List (List Char) :=
  (match l with
   | '₹' :: r => [r]
   | _ => []) ++
  (match l with
   | 'i' :: 'n' :: 'r' :: r => [r]
   | _ => []) ++
  (match l with
   | 'r' :: 's' :: '.' :: r => [r]
   | _ => []) ++
  (match l with
   | 'r' :: 's' :: r => [r]
   | _ => []) ++
  [l]

/-- Ordered alternatives left by the optional group `(?:of|up\s*to)?`. -/
def ofUpToAlts (l : List Char) : List (List Char) :=
  (match l with
   | 'o' :: 'f' :: r => [r]
   | _ => []) ++
  (match l with
   | 'u' :: 'p' :: r =>
     (match r.dropWhile Char.isWhitespace with
      | 't' :: 'o' :: r₂ => [r₂]
      | _ => [])
   | _ => []) ++
  [l]

/-- Anchored match of
`discount\s*(?:of|up\s*to)?\s*(?:₹|inr|rs\.?)?\s*([0-9][0-9,]{3,10})`
with full ordered backtracking through the two optional groups. -/
def matchDiscountAt (l : List Char) : Option Nat :=
  if ("discount".toList).isPrefixOf l then
    let r₀ := (l.drop 8).dropWhile Char.isWhitespace
    ((ofUpToAlts r₀).map fun r₁ =>
      let r₁ := r₁.dropWhile Char.isWhitespace
      ((currencyAlts r₁).map fun r₂ =>
        matchNumPlain 3 (r₂.dropWhile Char.isWhitespace)).findSome? id).findSome? id
  else none

/-- `re.search` scan for the discount pattern: leftmost match wins
(main.py 2433-2440 reads only the captured group). -/
def findDiscountValue : List Char → Option Nat
  | [] => none
  | c :: cs =>
    match matchDiscountAt (c :: cs) with
    | some v => some v
    | none => findDiscountValue cs

/-! ## `_clamp_score` and `_merge_student_inner_state` (main.py 904-933) -/

/-- A value found in a model-supplied stats dictionary, after the
`int(float(value))` parse attempt of `_clamp_score`: either it parses to an
integer or it raises (strings like `"high"`, `None`, …). -/
inductive PyNum where
  | parsable (n : Int)
  | unparsable
deriving DecidableEq, Repr

/-- `_clamp_score(value, fallback)` (main.py 904-909): parse, else fall back,
then clamp into `[0, 100]`. -/
def _clamp_score (value : PyNum) (fallback : Int) : Int :=
  let parsed : Int :=
    match value with
    | .parsable n => n
    | .unparsable => fallback
  max 0 (min 100 parsed)

/-- The prospect's psychological state (`StudentInnerState` TypedDict). -/
structure StudentInnerState where
  sentiment : String
  skepticism_level : Int
  trust_score : Int
  unresolved_concerns : List String
deriving DecidableEq, Repr

/-- A turn's `updated_stats` delta as consumed by
`_merge_student_inner_state`: each recognized key is either absent or maps
to a (possibly unparsable) value. Unrecognized keys are ignored by the
source and therefore not modelled. -/
structure StatsUpdates where
  skepticism_level : Option PyNum := none
  resistance : Option PyNum := none
  trust_score : Option PyNum := none
  trust : Option PyNum := none
  sentiment : Option String := none
  unresolved_concerns : Option (List String) := none
deriving DecidableEq, Repr

/-- Python truthiness `if not updates` for the modelled delta (extra
unrecognized keys would make the dict truthy but leave the merge result
unchanged, so emptiness of the modelled fields is extensionally faithful). -/
def StatsUpdates.isEmptyDict (u : StatsUpdates) : Bool :=
  u.skepticism_level.isNone && u.resistance.isNone && u.trust_score.isNone
    && u.trust.isNone && u.sentiment.isNone && u.unresolved_concerns.isNone

/-- `updates.get(k1, updates.get(k2, current))` fed to `_clamp_score`:
the first present key wins, otherwise the already-clamped current value is
re-clamped (a no-op). -/
def pickScore (k1 k2 : Option PyNum) (current : Int) : Int :=
  match k1 with
  | some v => _clamp_score v current
  | none =>
    match k2 with
    | some v => _clamp_score v current
    | none => max 0 (min 100 current)

/-- `_merge_student_inner_state(current, updates)` (main.py 912-933). The
three sequential mutations of the source are written as independent field
computations (they touch disjoint fields, so the result is identical). -/
def _merge_student_inner_state (current : StudentInnerState) (updates : StatsUpdates) :
    StudentInnerState :=
  let merged : StudentInnerState :=
    { sentiment := current.sentiment
      skepticism_level := max 0 (min 100 current.skepticism_level)
      trust_score := max 0 (min 100 current.trust_score)
      unresolved_concerns := current.unresolved_concerns }
  if updates.isEmptyDict then merged
  else
    { skepticism_level := pickScore updates.skepticism_level updates.resistance
        merged.skepticism_level
      trust_score := pickScore updates.trust_score updates.trust merged.trust_score
      sentiment :=
        match updates.sentiment with
        | some s => if s ≠ "" then lower (pyStrip s) else merged.sentiment
        | none => merged.sentiment
      unresolved_concerns :=
        match updates.unresolved_concerns with
        | some l => (l.map pyStrip).filter (· ≠ "")
        | none => merged.unresolved_concerns }

/-! ## Negotiation state and `_update_metrics` (main.py 2422-2533) -/

/-- Counsellor offer position (`state["counsellor_position"]`). -/
structure CounsellorPosition where
  target_offer : Int
  current_offer : Int
  floor_offer : Int
deriving DecidableEq, Repr

/-- Prospect offer position (`state["student_position"]`). -/
structure StudentPosition where
  budget : Int
  current_offer : Int
deriving DecidableEq, Repr

/-- Derived metrics bundle (`state["negotiation_metrics"]`); the `round` /
`max_rounds` mirrors maintained outside `_update_metrics` are not part of
the scorer and are modelled with the loop instead. -/
structure NegotiationMetrics where
  concession_count_counsellor : Int
  concession_count_student : Int
  tone_escalation : Int
  objection_intensity : Int
  trust_index : Int
  close_probability : Int
  concession_score : Int
  sentiment_indicator : String
  retry_modifier : Int
deriving DecidableEq, Repr

/-- The persona attributes read by the scorer. -/
structure Persona where
  primary_objections : List String
  confusion_level : Int
  willingness_to_invest_score : Int
deriving DecidableEq, Repr

/-- The negotiation-session state slice owned by the scorer. -/
structure NegotiationState where
  counsellor_position : CounsellorPosition
  student_position : StudentPosition
  student_inner_state : StudentInnerState
  negotiation_metrics : NegotiationMetrics
  persona : Persona
deriving DecidableEq, Repr

/-- One finalized turn record (the `msg` dict built in
`_stream_agent_response`, main.py 2374-2388). `updated_stats` is `none` for
the counsellor-turn case where no inner state was passed (`{}`). -/
structure TurnMsg where
  id : String
  round : Int
  agent : String
  content : String
  techniques : List String
  strategic_intent : String
  confidence_score : Int
  emotional_state : String
  internal_thought : String
  updated_stats : Option StudentInnerState
  generation_mode : String
deriving DecidableEq, Repr

/-- Python `sorted(set(l))` on strings: deduplicate, then sort in
code-point lexicographic order. -/
def sortedStrings (l : List String) : List String :=
  (l.eraseDups).mergeSort fun a b => !(decide (b < a))

/-- The counsellor concession selection (main.py 2442-2449): among
candidates within `[floor, prev_offer]` pick the minimum, but keep the
previous offer when that minimum equals the prospect's current offer. -/
def counsellorOfferUpdate (floor prev_offer prev_student_offer : Int)
    (coun_candidates : List Int) : Int :=
  if coun_candidates.isEmpty then prev_offer
  else
    let valid_coun := coun_candidates.filter fun c => floor ≤ c && c ≤ prev_offer
    match valid_coun with
    | [] => prev_offer
    | v :: vs =>
      let best_c := vs.foldl min v
      if best_c ≠ prev_student_offer then best_c else prev_offer

/-- The prospect concession selection (main.py 2456-2467): among candidates
within `[prev_student_offer, budget]` pick the maximum, except when that
maximum equals the counsellor's current offer and the sentence contains a
referencing phrase (then it is a citation, offer unchanged). -/
def studentOfferUpdate (budget prev_offer prev_student_offer : Int)
    (student_text : List Char) (stu_candidates : List Int) : Int :=
  if stu_candidates.isEmpty then prev_student_offer
  else
    let valid_stu := stu_candidates.filter fun c =>
      prev_student_offer ≤ c && c ≤ budget
    match valid_stu with
    | [] => prev_student_offer
    | v :: vs =>
      let candidate_bid := vs.foldl max v
      let is_referencing :=
        (["the price of", "listed price", "original price", "price for the",
          "reduction of"] : List String).any fun p =>
            listContains student_text p.toList
      if candidate_bid = prev_offer && is_referencing then prev_student_offer
      else candidate_bid

/-- The full counsellor candidate list of `_update_metrics`
(main.py 2430-2440): the extracted offer candidates, plus — when the
counsellor text contains a "discount of X" phrase whose amount is below 60%
of the current offer — the relative reduction `prev_offer − X` appended as
an absolute candidate. (`d_val < prev_offer * 0.6` is the exact rational
comparison `10·d < 6·prev_offer`.) -/
def counsellorCandidates (prev_offer : Int) (content : String) : List Int :=
  let base := (_extract_all_offer_candidates content).map Int.ofNat
  match findDiscountValue (lcList content) with
  | some d =>
    if (d : Int) * 10 < prev_offer * 6 then base ++ [prev_offer - d] else base
  | none => base

/-- `_update_metrics(state, counsellor_msg, student_msg)`
(main.py 2422-2533), returning the mutated state. Float coefficient
products (`0.7/0.2/0.1`, `0.75/0.25`, `0.35/0.25/0.15/0.25`) are modelled
by exact integer arithmetic with truncating division, matching
`int(...)` on the non-negative values that occur. -/
def _update_metrics (state : NegotiationState) (counsellor_msg student_msg : TurnMsg) :
    NegotiationState :=
  let metrics := state.negotiation_metrics
  let prev_offer := state.counsellor_position.current_offer
  let prev_student_offer := state.student_position.current_offer
  -- counsellor concession logic
  let coun_candidates := counsellorCandidates prev_offer counsellor_msg.content
  let coun_offer := counsellorOfferUpdate state.counsellor_position.floor_offer
    prev_offer prev_student_offer coun_candidates
  -- student concession logic
  let student_text := lcList student_msg.content
  let stu_candidates : List Int :=
    (_extract_all_offer_candidates student_msg.content).map Int.ofNat
  let stu_offer := studentOfferUpdate state.student_position.budget prev_offer
    prev_student_offer student_text stu_candidates
  -- concession counters
  let ccc := if coun_offer < prev_offer
    then metrics.concession_count_counsellor + 1 else metrics.concession_count_counsellor
  let ccs := if stu_offer > prev_student_offer
    then metrics.concession_count_student + 1 else metrics.concession_count_student
  -- concession score
  let target := state.counsellor_position.target_offer
  let floor := state.counsellor_position.floor_offer
  let margin := max 1 (target - floor)
  let concession_score := min 100 (max 0 (pyTrunc (100 * (target - coun_offer)) margin))
  -- emotional smoothing of tone and trust
  let emotional := lower (if student_msg.emotional_state = "" then "calm"
    else student_msg.emotional_state)
  let negativeEmotion := emotional = "frustrated" || emotional = "confused"
  let positiveEmotion := emotional = "excited" || emotional = "calm"
  let tone₁ := if negativeEmotion then min 100 (metrics.tone_escalation + 8)
    else if positiveEmotion then max 0 (metrics.tone_escalation - 4)
    else metrics.tone_escalation
  let trust₁ := if negativeEmotion then max 0 (metrics.trust_index - 6)
    else if positiveEmotion then min 100 (metrics.trust_index + 5)
    else metrics.trust_index
  -- objection hits
  let objections_text := lcList
    (String.intercalate " " state.persona.primary_objections ++ " "
      ++ student_msg.content)
  let objection_hits : Int :=
    ((["price", "cost", "risk", "uncertain", "expensive", "time", "trust",
        "proof"] : List String).filter fun t =>
      listContains objections_text t.toList).length
  let oi₁ := min 100 (max 0 (metrics.objection_intensity + (objection_hits - 2) * 2))
  -- unresolved concerns and sentiment of the inner state
  let inner := state.student_inner_state
  let unresolved := inner.unresolved_concerns
  let unresolved := if (["price", "fee", "cost", "expensive", "refund"] :
      List String).any (fun t => listContains student_text t.toList)
    then unresolved ++ ["Price"] else unresolved
  let unresolved := if (["placement", "job", "package", "guarantee"] :
      List String).any (fun t => listContains student_text t.toList)
    then unresolved ++ ["Job Guarantee"] else unresolved
  let unresolved := if (["time", "hours", "attendance", "effort"] :
      List String).any (fun t => listContains student_text t.toList)
    then unresolved ++ ["Effort/Time"] else unresolved
  let unresolved := sortedStrings unresolved
  let sentiment := if negativeEmotion then emotional
    else if positiveEmotion then "curious" else inner.sentiment
  let inner := { inner with unresolved_concerns := unresolved, sentiment := sentiment }
  -- blended objection intensity and trust index
  let oi₂ := min 100 (pyTrunc
    (oi₁ * 7 + inner.skepticism_level * 2 + state.persona.confusion_level) 10)
  let trust₂ := min 100 (max 0 (pyTrunc (trust₁ * 3 + inner.trust_score) 4))
  -- close probability
  let retry_modifier := metrics.retry_modifier
  let trust_score := min 100 (trust₂ + Int.fdiv retry_modifier 2)
  let willingness := min 100 (state.persona.willingness_to_invest_score + retry_modifier)
  let close_probability := pyTrunc
    (trust_score * 35 + (100 - oi₂) * 25 + (100 - tone₁) * 15 + willingness * 25) 100
  let sentiment_indicator := if negativeEmotion then "negative" else "positive"
  { state with
    counsellor_position := { state.counsellor_position with current_offer := coun_offer }
    student_position := { state.student_position with current_offer := stu_offer }
    student_inner_state := inner
    negotiation_metrics := { metrics with
      concession_count_counsellor := ccc
      concession_count_student := ccs
      concession_score := concession_score
      tone_escalation := tone₁
      objection_intensity := oi₂
      trust_index := trust₂
      close_probability := close_probability
      sentiment_indicator := sentiment_indicator } }

/-! ## Role-drift classifier (main.py 1083-1112) -/

/-- The hard drift patterns of `_looks_like_student_role_drift`, with the
two regex alternation groups (`our (program|course|curriculum|placement
team)`, `we (offer|provide|have|guarantee)`) expanded to literal phrases;
every pattern is searched with `\b` on both sides. -/
def hardDriftPhrases : List String :=
  ["as your counsellor", "i need to explain", "let me explain", "i can help you",
   "i will help you", "our program", "our course", "our curriculum",
   "our placement team", "we offer", "we provide", "we have", "we guarantee"]

/-- The advisory markers of `_looks_like_student_role_drift` (plain
substring containment). -/
def advisoryMarkers : List String :=
  ["you should", "i recommend", "i suggest", "please enroll", "you can enroll",
   "we can assist you with placement"]

/-- `_looks_like_student_role_drift(message)` (main.py 1083-1112): flag a
prospect message that reads like counsellor speech — a hard pattern hit, or
an advisory marker with no question mark anywhere in the text. -/
def _looks_like_student_role_drift (message : String) : Bool :=
  let text := (pyStrip message)
  if text = "" then false
  else
    let lowered := lcList text
    if hardDriftPhrases.any fun p => containsWordBounded p.toList none lowered then
      true
    else
      let has_advisory := advisoryMarkers.any fun p => listContains lowered p.toList
      let has_question := text.toList.contains '?'
      has_advisory && !has_question

/-! ## Tag-block extraction and counsellor message cleanup
(main.py 842-850, 1062-1069) -/

/-- Case-insensitive prefix test. -/
def prefixCI : List Char → List Char → Bool
  | [], _ => true
  | _ :: _, [] => false
  | a :: as, b :: bs => (a.toLower = b.toLower) && prefixCI as bs

/-- Split `hay` at the first case-insensitive occurrence of `needle`,
returning the parts before and after it. -/
def splitAtSubCI (needle : List Char) : List Char → Option (List Char × List Char)
  | [] => if needle.isEmpty then some ([], []) else none
  | c :: tl =>
    if prefixCI needle (c :: tl) then some ([], List.drop needle.length (c :: tl))
    else
      match splitAtSubCI needle tl with
      | some (pre, post) => some (c :: pre, post)
      | none => none

/-- `_extract_tag_block(raw, tag)` (main.py 842-850): the trimmed text
between the first `<tag>` and the first `</tag>` after it; when the closing
tag is missing, everything after the first `<tag>`. -/
def _extract_tag_block (raw : String) (tag : String) : String :=
  let openT := ("<" ++ tag ++ ">").toList
  let closeT := ("</" ++ tag ++ ">").toList
  match splitAtSubCI openT raw.toList with
  | none => ""
  | some (_, rest) =>
    match splitAtSubCI closeT rest with
    | some (content, _) => pyStrip (String.mk content)
    | none => pyStrip (String.mk rest)

/-- `re.sub(r"\s+\n", "\n", ·)`: every maximal whitespace run containing a
newline is replaced by a newline followed by the run's trailing
non-newline whitespace. -/
def subWsNlAux : Nat → List Char → List Char
  | 0, l => l
  | _ + 1, [] => []
  | fuel + 1, c :: tl =>
    if c.isWhitespace then
      let run := c :: tl.takeWhile Char.isWhitespace
      let rest := tl.dropWhile Char.isWhitespace
      (if run.contains '\n' then
        '\n' :: (run.reverse.takeWhile fun ch => ch != '\n').reverse
       else run) ++ subWsNlAux fuel rest
    else c :: subWsNlAux fuel tl

/-- `re.sub(r"\s+\n", "\n", s)` on a string. -/
def subWsNl (s : String) : String :=
  String.mk (subWsNlAux (s.toList.length + 1) s.toList)

/-- `_extract_counsellor_message(text)` (main.py 1062-1069): the `<message>`
tag block when present, otherwise the whole text, cleaned and never
empty. -/
def _extract_counsellor_message (text : String) : String :=
  let raw := pyStrip text
  if raw = "" then "..."
  else
    let tagged := _extract_tag_block raw "message"
    if tagged ≠ "" then
      let m := pyStrip (subWsNl tagged)
      if m = "" then "..." else m
    else
      let m := pyStrip (subWsNl raw)
      if m = "" then "..." else m

/-! ## Turn finalization and client-visible events (main.py 2252-2404) -/

/-- The record produced by `_extract_response_fields` (main.py 969-1059):
the field-extraction layer is modelled by its output, since the claims
below concern the control flow applied *after* extraction. -/
structure ExtractedFields where
  message : String
  techniques : List String
  intent : String
  confidence_score : Int
  emotional_state : String
  internal_thought : String
  updated_stats : StatsUpdates
deriving DecidableEq, Repr

/-- A client-visible websocket event emitted during turn finalization. -/
inductive WsEvent where
  | stream_chunk (agent text message_id : String)
  | student_thought (round : Int) (message_id thought : String)
      (updated_stats : Option StudentInnerState)
  | intent_update (agent intent : String)
  | message_complete (data : TurnMsg)
deriving DecidableEq, Repr

/-- The dictionary-default inner state read by
`_merge_student_inner_state` when it is handed an empty dict
(`current.get(...)` defaults: "curious", 50, 50, no concerns). -/
def defaultInnerState : StudentInnerState :=
  { sentiment := "curious", skepticism_level := 50, trust_score := 50
    unresolved_concerns := [] }

/-- The turn-finalization tail of `_stream_agent_response`
(main.py 2329-2404): counsellor message override, placeholder
substitution for a blank message, inner-state merge for prospect turns,
construction of the finalized `msg` record, and the client-visible events
(`student_thought` when a rationale is present, `intent_update`,
`message_complete` carrying the full record). -/
def finalizeTurn (agent : String) (full_text : String) (fields : ExtractedFields)
    (student_inner_state : Option StudentInnerState) (round : Int)
    (message_id : String) (generation_mode : String) : TurnMsg × List WsEvent :=
  let message := if agent = "counsellor" then _extract_counsellor_message full_text
    else fields.message
  let message := if pyStrip message = "" then "..." else message
  let merged_state : Option StudentInnerState :=
    if agent = "student" then
      some (_merge_student_inner_state (student_inner_state.getD defaultInnerState)
        fields.updated_stats)
    else student_inner_state
  let msg : TurnMsg :=
    { id := message_id, round := round, agent := agent, content := message
      techniques := fields.techniques, strategic_intent := fields.intent
      confidence_score := fields.confidence_score
      emotional_state := fields.emotional_state
      internal_thought := fields.internal_thought
      updated_stats := merged_state, generation_mode := generation_mode }
  let events :=
    (if agent = "student" ∧ fields.internal_thought ≠ "" then
      [WsEvent.student_thought round message_id fields.internal_thought merged_state]
     else [])
    ++ [WsEvent.intent_update agent fields.intent, WsEvent.message_complete msg]
  (msg, events)

/-- The sanitized prospect-turn copy appended to the session transcript
(main.py 2917-2920): rationale text and stats deltas stripped. -/
def spokenCopy (m : TurnMsg) : TurnMsg :=
  { m with internal_thought := "", updated_stats := none }

/-! ## Empty-stream fallback ladder (main.py 2252-2328) -/

/-- The canned fallback messages substituted when the structured retry
returns an empty message (main.py 2273-2278). -/
def cannedRetryMessage (agent : String) : String :=
  if agent = "student" then
    "I am still evaluating this. Please share your top concern so I can respond precisely."
  else "Could you share your top concern so I can address it directly?"

/-- Outcome of the fallback ladder: the text handed to extraction, the
turn's generation mode and the events emitted on the way. -/
structure LadderOut where
  full_text : String
  generation_mode : String
  events : List WsEvent
deriving DecidableEq, Repr

/-- The empty-stream fallback ladder of `_stream_agent_response`
(main.py 2252-2328), as a function of the accumulated stream buffer (empty
after an idle timeout, main.py 2193) and the structured-retry payload
fields (`str()`-coerced payload entries; `statsJson` stands for the
`json.dumps` serialization of the retry stats dict). -/
def streamLadder (agent : String) (buffer : String) (message_id : String)
    (retryMessage retryThought retryIntent retryEmotion statsJson : String) :
    LadderOut :=
  if pyStrip buffer ≠ "" then
    { full_text := buffer, generation_mode := "stream", events := [] }
  else
    let retry_message := if pyStrip retryMessage = "" then cannedRetryMessage agent
      else pyStrip retryMessage
    let retry_thought := if pyStrip retryThought = "" then "No internal thought captured"
      else pyStrip retryThought
    let retry_intent := if pyStrip retryIntent = "" then "No Intent detected"
      else pyStrip retryIntent
    let retry_emotion := if pyStrip retryEmotion = "" then "calm" else pyStrip retryEmotion
    let full_text :=
      if agent = "student" then
        "<thought>" ++ retry_thought ++ "</thought>\n<stats>" ++ statsJson
          ++ "</stats>\n<message>" ++ retry_message ++ "</message>\n<emotional_state>"
          ++ retry_emotion ++ "</emotional_state>\n<intent>" ++ retry_intent ++ "</intent>"
      else retry_message
    let events :=
      if pyStrip full_text ≠ "" then [WsEvent.stream_chunk agent full_text message_id]
      else []
    if pyStrip full_text = "" then
      { full_text := "<message>...</message>", generation_mode := "fallback"
        events := events }
    else
      { full_text := full_text, generation_mode := "structured_retry", events := events }

/-! ## Structured retry with role-drift guard (main.py 1926-2031) -/

/-- The model's structured response to a retry or rewrite request, after
`_to_plain_json` (the fields `_retry_with_structured_json` reads). -/
structure RetryPayload where
  message : String
  internal_thought : String
  updated_stats : StatsUpdates
  emotional_state : String
  intent : String
  confidence_score : Int
  techniques : List String
deriving DecidableEq, Repr

/-- The hard-coded learner fallback payload of
`_retry_with_structured_json` (main.py 1936-1944). -/
def studentRetryFallback : RetryPayload :=
  { message := "I am still processing this. Please clarify one key point for me."
    internal_thought := "No internal thought captured"
    updated_stats := {}
    emotional_state := "calm"
    intent := "No Intent detected"
    confidence_score := 50
    techniques := [] }

/-- The student branch of `_retry_with_structured_json`
(main.py 1933-2031) as a function of the model's first structured response
and its rewrite response: classify the stripped message for role drift,
rewrite once when flagged, and overwrite every field with the canned
learner fallback when the rewrite still drifts. -/
def retryStudentPayload (p₁ p₂ : RetryPayload) : RetryPayload :=
  if _looks_like_student_role_drift (pyStrip p₁.message) then
    if _looks_like_student_role_drift (pyStrip p₂.message) then
      { p₂ with
        message := studentRetryFallback.message
        internal_thought := studentRetryFallback.internal_thought
        updated_stats := {}
        emotional_state := studentRetryFallback.emotional_state
        intent := studentRetryFallback.intent
        confidence_score := studentRetryFallback.confidence_score
        techniques := [] }
    else p₂
  else p₁

/-! ## Round-loop termination model (main.py 2820-2985) -/

/-- The consecutive-failure counter update (main.py 2887-2890): reset to 0
on a plain streamed student turn, incremented on any other generation
mode. -/
def stepStudentFailures (failures : Nat) (generation_mode : String) : Nat :=
  if generation_mode = "stream" then 0 else failures + 1

/-- The loop-control slice of the websocket session state. -/
structure LoopState where
  round : Nat
  max_rounds : Nat
  deal_status : String
  failures : Nat
deriving DecidableEq, Repr

/-- One round of the websocket loop, restricted to the fields that control
termination (main.py 2887-2911 and the `round += 1` at 2983): update the
failure counter from the student turn's generation mode and force
`deal_status = "failed"` once it reaches 2. -/
def loopStep (s : LoopState) (generation_mode : String) : LoopState :=
  let failures := stepStudentFailures s.failures generation_mode
  let deal_status := if failures ≥ 2 then "failed" else s.deal_status
  { s with failures := failures, deal_status := deal_status, round := s.round + 1 }

/-- The round loop (condition at main.py 2824) over a script of
student-turn generation modes, one per round. -/
def runLoop : LoopState → List String → LoopState
  | s, [] => s
  | s, gm :: rest =>
    if s.round ≤ s.max_rounds && s.deal_status = "ongoing" then
      runLoop (loopStep s gm) rest
    else s

/-- Two consecutive non-streamed entries (starting from `f` accumulated
failures) — the condition under which the code aborts. -/
def hasConsecutiveFailure : Nat → List String → Bool
  | _, [] => false
  | f, gm :: rest =>
    if gm = "stream" then hasConsecutiveFailure 0 rest
    else if f + 1 ≥ 2 then true
    else hasConsecutiveFailure (f + 1) rest

/-! ## Statement of claim C1's concession rule in the spec's own words -/

/-- The counsellor concession rule exactly as the specification words it
(claim C1), for comparison with `counsellorOfferUpdate`: among candidates
within `[floor, currentOffer]` take the minimum; a candidate equal to the
prospect's current offer is rejected as a citation *unless no other valid
candidate exists, in which case it is still admitted*. -/
def claimedCounsellorOffer (floor prev_offer prev_student_offer : Int)
    (cands : List Int) : Int :=
  let valid := cands.filter fun c => floor ≤ c && c ≤ prev_offer
  match valid with
  | [] => prev_offer
  | v :: vs =>
    let nonCiting := (v :: vs).filter fun c => c ≠ prev_student_offer
    match nonCiting with
    | [] => vs.foldl min v
    | w :: ws => ws.foldl min w

/-! ## Concrete session inputs used by scenario theorems -/

/-- A concrete mid-session state: counsellor target and current offer
₹50,000, floor ₹30,000; prospect budget ₹47,000, current offer ₹36,000. -/
def exampleState : NegotiationState :=
  { counsellor_position := { target_offer := 50000, current_offer := 50000, floor_offer := 30000 }
    student_position := { budget := 47000, current_offer := 36000 }
    student_inner_state :=
      { sentiment := "curious", skepticism_level := 60, trust_score := 48
        unresolved_concerns := ["Price", "Job Guarantee"] }
    negotiation_metrics :=
      { concession_count_counsellor := 0, concession_count_student := 1
        tone_escalation := 15, objection_intensity := 45, trust_index := 50
        close_probability := 45, concession_score := 0
        sentiment_indicator := "neutral", retry_modifier := 7 }
    persona :=
      { primary_objections := ["price is high", "time commitment"]
        confusion_level := 40, willingness_to_invest_score := 55 } }

/-- A concrete turn record with the given spoken text and emotion tag. -/
def exampleMsg (content emotional_state : String) : TurnMsg :=
  { id := "m1", round := 1, agent := "counsellor", content := content
    techniques := [], strategic_intent := "", confidence_score := 60
    emotional_state := emotional_state, internal_thought := ""
    updated_stats := none, generation_mode := "stream" }

/-! ## `_decide_outcome_from_judge` (main.py 2536-2544) -/

/-- `_decide_outcome_from_judge` (main.py 2536-2544): the deterministic
deal-status rule applied to the judge's commitment signal and likelihood.
The redundant `likelihood < 35` branch of the source is kept verbatim. -/
def _decide_outcome_from_judge (commitment : String) (likelihood : Int) : String :=
  if (commitment = "conditional_commitment" || commitment = "strong_commitment")
      && likelihood ≥ 65 then
    "closed"
  else if likelihood < 35 then
    "failed"
  else
    "failed"

end Closewire

namespace Closewire

/-! ## Claim theorems: C2, C7 -/

/-- C2. The final deal-status decision is deterministic: the session ends
`closed` iff the judge's commitment signal is conditional or strong
commitment and likelihood is at least 65; in every other case it is
`failed`; a soft commitment with likelihood 80 yields `failed`; and a
likelihood below 35 is handled identically to the mid-range case. -/
theorem deal_status_decision (c : String) (l l₁ l₂ : Int)
    (h₁ : l₁ < 35) (h₂ : 35 ≤ l₂) (h₃ : l₂ < 65) :
    (_decide_outcome_from_judge c l = "closed"
      ↔ (c = "conditional_commitment" ∨ c = "strong_commitment") ∧ 65 ≤ l)
    ∧ (_decide_outcome_from_judge c l = "closed"
        ∨ _decide_outcome_from_judge c l = "failed")
    ∧ _decide_outcome_from_judge "soft_commitment" 80 = "failed"
    ∧ _decide_outcome_from_judge c l₁ = _decide_outcome_from_judge c l₂ := by
  unfold _decide_outcome_from_judge
  refine ⟨?_, ?_, ?_, ?_⟩
  · constructor
    · intro h
      by_cases hc : (c = "conditional_commitment" || c = "strong_commitment") && l ≥ 65
      · simp only [Bool.and_eq_true, Bool.or_eq_true, decide_eq_true_eq] at hc
        exact ⟨hc.1, hc.2⟩
      · simp only [hc, if_neg, Bool.false_eq_true, if_false] at h
        split at h <;> simp_all
    · rintro ⟨hc, hl⟩
      have : (c = "conditional_commitment" || c = "strong_commitment") && l ≥ 65 := by
        simp only [Bool.and_eq_true, Bool.or_eq_true, decide_eq_true_eq]
        exact ⟨hc, hl⟩
      simp [this]
  · by_cases hc : (c = "conditional_commitment" || c = "strong_commitment") && l ≥ 65
    · simp [hc]
    · simp only [hc, Bool.false_eq_true, if_false]
      split <;> simp
  · rfl
  · have hb₁ : ¬ ((c = "conditional_commitment" || c = "strong_commitment") && l₁ ≥ 65) := by
      simp only [Bool.and_eq_true, decide_eq_true_eq, not_and]
      intro _; omega
    have hb₂ : ¬ ((c = "conditional_commitment" || c = "strong_commitment") && l₂ ≥ 65) := by
      simp only [Bool.and_eq_true, decide_eq_true_eq, not_and]
      intro _; omega
    simp only [hb₁, hb₂, Bool.false_eq_true, if_false]
    have : ¬ l₂ < 35 := by omega
    simp [h₁, this]

/-- Witness for `deal_status_decision` at concrete inputs. -/
theorem deal_status_decision_witness :
    _decide_outcome_from_judge "none" 10 = _decide_outcome_from_judge "none" 40 :=
  (deal_status_decision "none" 70 10 40 (by norm_num) (by norm_num) (by norm_num)).2.2.2

/-- `_clamp_score` always lands in `[0, 100]`. -/
theorem clamp_score_bounds (v : PyNum) (fallback : Int) :
    0 ≤ _clamp_score v fallback ∧ _clamp_score v fallback ≤ 100 := by
  cases v <;> (dsimp [_clamp_score]; omega)

/-- `pickScore` always lands in `[0, 100]`. -/
theorem pickScore_bounds (k₁ k₂ : Option PyNum) (cur : Int) :
    0 ≤ pickScore k₁ k₂ cur ∧ pickScore k₁ k₂ cur ≤ 100 := by
  cases k₁ with
  | some v => exact clamp_score_bounds v cur
  | none =>
    cases k₂ with
    | some v => exact clamp_score_bounds v cur
    | none => dsimp [pickScore]; omega

/-- `List.foldl min` is bounded by its seed. -/
theorem foldl_min_le_seed (vs : List Int) (v : Int) : vs.foldl min v ≤ v := by
  induction vs generalizing v with
  | nil => simp
  | cons w ws ih => exact le_trans (ih (min v w)) (min_le_left v w)

/-- `List.foldl min` returns its seed or a list element. -/
theorem foldl_min_mem (vs : List Int) (v : Int) :
    vs.foldl min v = v ∨ vs.foldl min v ∈ vs := by
  induction vs generalizing v with
  | nil => simp
  | cons w ws ih =>
    simp only [List.foldl_cons]
    rcases ih (min v w) with h | h
    · rw [h]
      rcases le_total v w with hvw | hwv
      · left
        exact min_eq_left hvw
      · right
        rw [min_eq_right hwv]
        exact List.mem_cons_self w ws
    · right
      exact List.mem_cons_of_mem w h

/-- `List.foldl min` is a lower bound for every list element. -/
theorem foldl_min_le_mem : ∀ (vs : List Int) (v x : Int), x ∈ vs → vs.foldl min v ≤ x
  | [], _, x, hx => absurd hx (List.not_mem_nil x)
  | w :: ws, v, x, hx => by
    simp only [List.foldl_cons]
    rcases List.mem_cons.mp hx with rfl | h
    · exact le_trans (foldl_min_le_seed ws (min v x)) (min_le_right v x)
    · exact foldl_min_le_mem ws (min v w) x h

/-- `counsellorOfferUpdate` on a non-empty valid-candidate list: take the
minimum unless it equals the prospect's current offer, in which case keep
the previous offer. -/
theorem counsellorOfferUpdate_eq (floor prev prevStu : Int) (cands : List Int)
    (v : Int) (vs : List Int)
    (h : cands.filter (fun c => floor ≤ c && c ≤ prev) = v :: vs) :
    counsellorOfferUpdate floor prev prevStu cands
      = if vs.foldl min v = prevStu then prev else vs.foldl min v := by
  unfold counsellorOfferUpdate
  have hne : cands.isEmpty = false := by
    cases cands with
    | nil => simp at h
    | cons a l => rfl
  simp only [hne, Bool.false_eq_true, if_false, h]
  by_cases hb : vs.foldl min v = prevStu
  · simp [hb]
  · simp [hb]

/-- C1 (amended). Counsellor concession selection as the code performs it:
when the extracted candidates within `[floor_offer, current_offer]` are
non-empty, their minimum is the new counsellor offer **unless** that
minimum exactly equals the prospect's current offer, in which case the
offer is left unchanged — even when other valid candidates exist (the
"admit the citation when it is the only valid candidate" clause of the
original claim does not hold, see `counsellor_citation_counterexample`). -/
theorem counsellor_concession_rule (state : NegotiationState) (cm sm : TurnMsg)
    (v : Int) (vs : List Int)
    (hvalid : (counsellorCandidates state.counsellor_position.current_offer
        cm.content).filter
        (fun c => state.counsellor_position.floor_offer ≤ c
          && c ≤ state.counsellor_position.current_offer) = v :: vs) :
    ((_update_metrics state cm sm).counsellor_position.current_offer
      = if vs.foldl min v = state.student_position.current_offer
        then state.counsellor_position.current_offer
        else vs.foldl min v)
    ∧ vs.foldl min v ∈ v :: vs
    ∧ (∀ x ∈ v :: vs, vs.foldl min v ≤ x) := by
  refine ⟨?_, ?_, ?_⟩
  · have hproj : (_update_metrics state cm sm).counsellor_position.current_offer
        = counsellorOfferUpdate state.counsellor_position.floor_offer
            state.counsellor_position.current_offer
            state.student_position.current_offer
            (counsellorCandidates state.counsellor_position.current_offer
              cm.content) := rfl
    rw [hproj,
      counsellorOfferUpdate_eq state.counsellor_position.floor_offer
        state.counsellor_position.current_offer
        state.student_position.current_offer _ v vs hvalid]
  · rcases foldl_min_mem vs v with h | h
    · rw [h]; exact List.mem_cons_self v vs
    · exact List.mem_cons_of_mem v h
  · intro x hx
    rcases List.mem_cons.mp hx with rfl | h
    · exact foldl_min_le_seed vs x
    · exact foldl_min_le_mem vs v x h

/-- Witness for `counsellor_concession_rule`: the counsellor text
"Rs. 45,000" against floor ₹30,000 / current ₹50,000 / prospect ₹36,000
yields candidate list `[45000, 45000]` and new offer ₹45,000. -/
theorem counsellor_concession_rule_witness :
    ((_update_metrics exampleState
        (exampleMsg "I can offer you a special price of Rs. 45,000 today." "")
        (exampleMsg "Fine." "calm")).counsellor_position.current_offer
      = if ([45000] : List Int).foldl min 45000
            = exampleState.student_position.current_offer
        then exampleState.counsellor_position.current_offer
        else ([45000] : List Int).foldl min 45000)
    ∧ ([45000] : List Int).foldl min 45000 ∈ ([45000, 45000] : List Int)
    ∧ (∀ x ∈ ([45000, 45000] : List Int), ([45000] : List Int).foldl min 45000 ≤ x) :=
  counsellor_concession_rule exampleState
    (exampleMsg "I can offer you a special price of Rs. 45,000 today." "")
    (exampleMsg "Fine." "calm") 45000 [45000] (by decide)

/-- C1 (counterexample). With floor ₹30,000, current offer ₹50,000 and
prospect offer ₹36,000, a counsellor turn whose only extracted candidate is
₹36,000 (exactly the prospect's current offer) leaves the code's offer at
₹50,000, while the claim's rule ("still admitted when no other valid
candidate exists") demands ₹36,000. -/
theorem counsellor_citation_counterexample :
    (_update_metrics exampleState
        (exampleMsg "I can match your 36,000 offer right now." "")
        (exampleMsg "Let me think." "calm")).counsellor_position.current_offer = 50000
    ∧ claimedCounsellorOffer 30000 50000 36000
        (counsellorCandidates 50000 "I can match your 36,000 offer right now.")
      = 36000
    ∧ (50000 : Int) ≠ 36000 :=
  ⟨rfl, rfl, by decide⟩

/-- C6. After every metrics update the concession score equals
`100 × (target − counsellorOffer) / max(1, target − floor)` (integer
quotient, truncated as `int()` does) clamped to `[0, 100]`, and in the
spec's scenario — counsellor offer ₹45,000, floor ₹30,000, target ₹50,000 —
it is exactly 25. -/
theorem concession_score_after_update :
    (∀ (state : NegotiationState) (cm sm : TurnMsg),
      (_update_metrics state cm sm).negotiation_metrics.concession_score
        = min 100 (max 0 (pyTrunc
            (100 * (state.counsellor_position.target_offer
              - (_update_metrics state cm sm).counsellor_position.current_offer))
            (max 1 (state.counsellor_position.target_offer
              - state.counsellor_position.floor_offer))))
      ∧ 0 ≤ (_update_metrics state cm sm).negotiation_metrics.concession_score
      ∧ (_update_metrics state cm sm).negotiation_metrics.concession_score ≤ 100)
    ∧ (_update_metrics exampleState
        (exampleMsg "I can offer you a special price of Rs. 45,000 today." "")
        (exampleMsg "Still thinking." "calm")).negotiation_metrics.concession_score
      = 25 := by
  constructor
  · intro state cm sm
    refine ⟨rfl, ?_, ?_⟩
    · have h : (_update_metrics state cm sm).negotiation_metrics.concession_score
          = min 100 (max 0 (pyTrunc
              (100 * (state.counsellor_position.target_offer
                - (_update_metrics state cm sm).counsellor_position.current_offer))
              (max 1 (state.counsellor_position.target_offer
                - state.counsellor_position.floor_offer)))) := rfl
      rw [h]
      exact le_min (by norm_num) (le_max_left 0 _)
    · have h : (_update_metrics state cm sm).negotiation_metrics.concession_score
          = min 100 (max 0 (pyTrunc
              (100 * (state.counsellor_position.target_offer
                - (_update_metrics state cm sm).counsellor_position.current_offer))
              (max 1 (state.counsellor_position.target_offer
                - state.counsellor_position.floor_offer)))) := rfl
      rw [h]
      exact min_le_left 100 _
  · rfl

/-- C7. Psychological-state merge clamping: for every merge of a turn's
`stateDelta` into the prospect's state, the resulting skepticism
(resistance) and trust values lie within `[0, 100]` regardless of
out-of-range input; an input of 130 yields 100, an input of −15 yields 0,
and an unparsable value falls back to the (clamped) current value instead
of failing. -/
theorem merge_state_clamped :
    (∀ (current : StudentInnerState) (updates : StatsUpdates),
      0 ≤ (_merge_student_inner_state current updates).skepticism_level
      ∧ (_merge_student_inner_state current updates).skepticism_level ≤ 100
      ∧ 0 ≤ (_merge_student_inner_state current updates).trust_score
      ∧ (_merge_student_inner_state current updates).trust_score ≤ 100)
    ∧ (_merge_student_inner_state
        ⟨"curious", 60, 50, ["Price"]⟩
        { resistance := some (.parsable 130), trust := some (.parsable (-15)) }
      = ⟨"curious", 100, 0, ["Price"]⟩)
    ∧ (∀ (current : StudentInnerState),
        (_merge_student_inner_state current
          { resistance := some .unparsable }).skepticism_level
        = max 0 (min 100 current.skepticism_level)) := by
  refine ⟨?_, by decide, ?_⟩
  · intro current updates
    unfold _merge_student_inner_state
    split
    · dsimp only; omega
    · dsimp only
      have h₁ := pickScore_bounds updates.skepticism_level updates.resistance
        (max 0 (min 100 current.skepticism_level))
      have h₂ := pickScore_bounds updates.trust_score updates.trust
        (max 0 (min 100 current.trust_score))
      exact ⟨h₁.1, h₁.2, h₂.1, h₂.2⟩
  · intro current
    unfold _merge_student_inner_state
    have h : StatsUpdates.isEmptyDict { resistance := some .unparsable } = false := by decide
    simp only [h, Bool.false_eq_true, if_false]
    dsimp [pickScore, _clamp_score]
    omega

/-- C10. The single-amount monetary extractor is total and always returns
at least 1000: it returns the floored-at-1000 maximum of whichever pattern
family fires first in the lakh → currency-prefixed → bare-number cascade,
and the constant 4500 when no pattern matches at all; consequently a
non-numeric fee such as "Price on Request" becomes a listed fee of 4500,
from which the opening offers, student budget and counsellor floor are all
derived (shown at willingness 50: budget 4500, opening counsellor offer
4950, floor 3564, student opening 3600). -/
theorem monetary_extractor_cascade :
    (∀ s : String, 1000 ≤ extract_inr_amount s)
    ∧ (∀ s : String, findAll matchLakhAt (lcList s) ≠ [] →
        extract_inr_amount s = max 1000 (maxNat (findAll matchLakhAt (lcList s))))
    ∧ (∀ s : String, findAll matchLakhAt (lcList s) = [] →
        findAll (matchInrAt 3) (lcList s) ≠ [] →
        extract_inr_amount s = max 1000 (maxNat (findAll (matchInrAt 3) (lcList s))))
    ∧ (∀ s : String, findAll matchLakhAt (lcList s) = [] →
        findAll (matchInrAt 3) (lcList s) = [] →
        findAll (matchNumWordAt Char.isDigit 3) (lcList s) ≠ [] →
        extract_inr_amount s
          = max 1000 (maxNat (findAll (matchNumWordAt Char.isDigit 3) (lcList s))))
    ∧ (∀ s : String, findAll matchLakhAt (lcList s) = [] →
        findAll (matchInrAt 3) (lcList s) = [] →
        findAll (matchNumWordAt Char.isDigit 3) (lcList s) = [] →
        extract_inr_amount s = 4500)
    ∧ extract_inr_amount "Price on Request" = 4500
    ∧ _derive_financials "Price on Request" 50
      = { listed_fee := 4500, student_budget := 4500, counsellor_offer := 4950
          floor_offer := 3564, student_opening := 3600 } := by
  have hcasc : ∀ s : String,
      extract_inr_amount s
        = (if (findAll matchLakhAt (lcList s)).isEmpty = false
           then max 1000 (maxNat (findAll matchLakhAt (lcList s)))
           else if (findAll (matchInrAt 3) (lcList s)).isEmpty = false
           then max 1000 (maxNat (findAll (matchInrAt 3) (lcList s)))
           else if (findAll (matchNumWordAt Char.isDigit 3) (lcList s)).isEmpty = false
           then max 1000 (maxNat (findAll (matchNumWordAt Char.isDigit 3) (lcList s)))
           else 4500) := by
    intro s
    unfold extract_inr_amount
    rcases h₁ : (findAll matchLakhAt (lcList s)).isEmpty <;>
      rcases h₂ : (findAll (matchInrAt 3) (lcList s)).isEmpty <;>
        rcases h₃ : (findAll (matchNumWordAt Char.isDigit 3) (lcList s)).isEmpty <;>
          simp [h₁, h₂, h₃]
  refine ⟨?_, ?_, ?_, ?_, ?_, rfl, rfl⟩
  · intro s
    rw [hcasc s]
    split
    · exact le_max_left 1000 _
    · split
      · exact le_max_left 1000 _
      · split
        · exact le_max_left 1000 _
        · norm_num
  · intro s h
    rw [hcasc s]
    have : (findAll matchLakhAt (lcList s)).isEmpty = false := by
      cases hl : findAll matchLakhAt (lcList s)
      · exact absurd hl h
      · rfl
    simp [this]
  · intro s h₁ h₂
    have e₁ : (findAll matchLakhAt (lcList s)).isEmpty = true := by rw [h₁]; rfl
    have e₂ : (findAll (matchInrAt 3) (lcList s)).isEmpty = false := by
      cases hl : findAll (matchInrAt 3) (lcList s)
      · exact absurd hl h₂
      · rfl
    rw [hcasc s]
    simp [e₁, e₂]
  · intro s h₁ h₂ h₃
    have e₁ : (findAll matchLakhAt (lcList s)).isEmpty = true := by rw [h₁]; rfl
    have e₂ : (findAll (matchInrAt 3) (lcList s)).isEmpty = true := by rw [h₂]; rfl
    have e₃ : (findAll (matchNumWordAt Char.isDigit 3) (lcList s)).isEmpty = false := by
      cases hl : findAll (matchNumWordAt Char.isDigit 3) (lcList s)
      · exact absurd hl h₃
      · rfl
    rw [hcasc s]
    simp [e₁, e₂, e₃]
  · intro s h₁ h₂ h₃
    have e₁ : (findAll matchLakhAt (lcList s)).isEmpty = true := by rw [h₁]; rfl
    have e₂ : (findAll (matchInrAt 3) (lcList s)).isEmpty = true := by rw [h₂]; rfl
    have e₃ : (findAll (matchNumWordAt Char.isDigit 3) (lcList s)).isEmpty = true := by
      rw [h₃]; rfl
    rw [hcasc s]
    simp [e₁, e₂, e₃]

/-- Witness for `monetary_extractor_cascade`: on "₹45,000" the lakh pattern
finds nothing, the currency-prefixed pattern fires, and the extractor
returns its floored maximum. -/
theorem monetary_extractor_cascade_witness :
    extract_inr_amount "₹45,000"
      = max 1000 (maxNat (findAll (matchInrAt 3) (lcList "₹45,000"))) :=
  monetary_extractor_cascade.2.2.1 "₹45,000" rfl (by decide)

/-- C5. The final negotiation score is computed locally: with the verdict's
likelihood and the running metrics in their documented `[0, 100]` ranges,
the score equals the truncated `0.4×likelihood + 0.3×finalTrust +
0.3×(100 − concessionScore)` plus a flat +10 bonus exactly when the
lower-cased free-text winner contains "specialist" or "counsellor", clamped
to `[0, 100]`, where `finalTrust` is the running trust index adjusted by
the verdict's `trustDelta` and itself clamped to `[0, 100]`. -/
theorem negotiation_score_formula (l ti cs delta : Int) (w : String)
    (hl₀ : 0 ≤ l) (hl₁ : l ≤ 100) (ht₀ : 0 ≤ ti) (ht₁ : ti ≤ 100)
    (hc₀ : 0 ≤ cs) (hc₁ : cs ≤ 100) :
    negotiationScore l ti cs delta w
      = max 0 (min 100 (pyTrunc
          (l * 4 + (max 0 (min 100 (ti + delta))) * 3 + (100 - cs) * 3) 10
          + (if strContains (lower w) "specialist" || strContains (lower w) "counsellor"
             then 10 else 0)))
    ∧ 0 ≤ negotiationScore l ti cs delta w
    ∧ negotiationScore l ti cs delta w ≤ 100 := by
  have hbase : 0 ≤ pyTrunc
      (l * 4 + (max 0 (min 100 (ti + delta))) * 3 + (100 - cs) * 3) 10 := by
    apply Int.tdiv_nonneg _ (by norm_num)
    have h₂ : 0 ≤ max 0 (min 100 (ti + delta)) := le_max_left 0 (min 100 (ti + delta))
    nlinarith
  have hscore : negotiationScore l ti cs delta w
      = min 100 (pyTrunc
          (l * 4 + (max 0 (min 100 (ti + delta))) * 3 + (100 - cs) * 3) 10
          + (if strContains (lower w) "specialist" || strContains (lower w) "counsellor"
             then 10 else 0)) := rfl
  have hb : (0 : Int) ≤ (if strContains (lower w) "specialist"
      || strContains (lower w) "counsellor" then (10 : Int) else 0) := by
    split <;> norm_num
  refine ⟨?_, ?_, ?_⟩
  · rw [hscore, eq_comm, max_eq_right]
    exact le_min (by norm_num) (by omega)
  · rw [hscore]
    exact le_min (by norm_num) (by omega)
  · rw [hscore]
    exact min_le_left 100 _

/-- The head surviving a `dropWhile` fails the predicate. -/
theorem dropWhile_head?_false (p : Char → Bool) (l : List Char) (c : Char)
    (h : (l.dropWhile p).head? = some c) : p c = false := by
  induction l with
  | nil => simp [List.dropWhile] at h
  | cons a t ih =>
    by_cases hp : p a
    · rw [List.dropWhile_cons, if_pos hp] at h
      exact ih h
    · rw [List.dropWhile_cons, if_neg hp] at h
      simp only [List.head?_cons, Option.some.injEq] at h
      rw [← h]
      exact Bool.not_eq_true (p a) ▸ eq_false_of_ne_true hp

/-- `dropWhile` is the identity when the head already fails the
predicate. -/
theorem dropWhile_of_head_ok (p : Char → Bool) (l : List Char)
    (h : ∀ c, l.head? = some c → p c = false) : l.dropWhile p = l := by
  cases l with
  | nil => rfl
  | cons a t =>
    have ha := h a rfl
    rw [List.dropWhile_cons, if_neg (by simp [ha])]

/-- `dropWhile` keeps the last element when its result is non-empty. -/
theorem getLast?_dropWhile (p : Char → Bool) (l : List Char)
    (h : l.dropWhile p ≠ []) : (l.dropWhile p).getLast? = l.getLast? := by
  induction l with
  | nil => simp [List.dropWhile] at h
  | cons a t ih =>
    by_cases hp : p a
    · rw [List.dropWhile_cons, if_pos hp] at h ⊢
      have ht : t ≠ [] := by
        intro he
        rw [he] at h
        simp [List.dropWhile] at h
      rw [ih h]
      cases t with
      | nil => exact absurd rfl ht
      | cons b t' => rw [List.getLast?_cons_cons]
    · rw [List.dropWhile_cons, if_neg hp]

/-- `stripChars` is idempotent. -/
theorem stripChars_idem (l : List Char) : stripChars (stripChars l) = stripChars l := by
  unfold stripChars
  cases hBe : ((l.dropWhile Char.isWhitespace).reverse).dropWhile Char.isWhitespace with
  | nil => simp [hBe, List.dropWhile]
  | cons b bs =>
    have hBne : ((l.dropWhile Char.isWhitespace).reverse).dropWhile Char.isWhitespace
        ≠ [] := by rw [hBe]; exact List.cons_ne_nil b bs
    rw [← hBe]
    have hlast : (((l.dropWhile Char.isWhitespace).reverse).dropWhile
          Char.isWhitespace).getLast?
        = (l.dropWhile Char.isWhitespace).reverse.getLast? :=
      getLast?_dropWhile Char.isWhitespace (l.dropWhile Char.isWhitespace).reverse hBne
    have hhead : (((l.dropWhile Char.isWhitespace).reverse).dropWhile
          Char.isWhitespace).reverse.head?
        = (l.dropWhile Char.isWhitespace).head? := by
      rw [List.head?_reverse, hlast, List.getLast?_reverse]
    have h1 : (((l.dropWhile Char.isWhitespace).reverse).dropWhile
          Char.isWhitespace).reverse.dropWhile Char.isWhitespace
        = (((l.dropWhile Char.isWhitespace).reverse).dropWhile
            Char.isWhitespace).reverse := by
      apply dropWhile_of_head_ok
      intro c hc
      rw [hhead] at hc
      exact dropWhile_head?_false Char.isWhitespace l c hc
    have h2 : (((l.dropWhile Char.isWhitespace).reverse).dropWhile
          Char.isWhitespace).dropWhile Char.isWhitespace
        = ((l.dropWhile Char.isWhitespace).reverse).dropWhile Char.isWhitespace := by
      apply dropWhile_of_head_ok
      intro c hc
      exact dropWhile_head?_false Char.isWhitespace
        (l.dropWhile Char.isWhitespace).reverse c hc
    rw [h1, List.reverse_reverse, h2]

/-- `pyStrip` is idempotent. -/
theorem pyStrip_idem (s : String) : pyStrip (pyStrip s) = pyStrip s := by
  show String.mk (stripChars (stripChars s.toList)) = String.mk (stripChars s.toList)
  rw [stripChars_idem]

/-- A non-whitespace member of the list survives `stripChars`. -/
theorem mem_stripChars (l : List Char) (c : Char) (hc : c ∈ l)
    (hw : Char.isWhitespace c = false) : c ∈ stripChars l := by
  have key : ∀ (m : List Char), c ∈ m → c ∈ m.dropWhile Char.isWhitespace := by
    intro m hm
    induction m with
    | nil => cases hm
    | cons a t ih =>
      by_cases hp : Char.isWhitespace a
      · rw [List.dropWhile_cons, if_pos hp]
        rcases List.mem_cons.mp hm with rfl | h
        · rw [hp] at hw
          cases hw
        · exact ih h
      · rw [List.dropWhile_cons, if_neg hp]
        exact hm
  unfold stripChars
  rw [List.mem_reverse]
  exact key _ (List.mem_reverse.mpr (key l hc))

/-- `pyStrip s` is non-empty when `s` contains a non-whitespace
character. -/
theorem pyStrip_ne_empty (s : String) (c : Char) (hc : c ∈ s.toList)
    (hw : Char.isWhitespace c = false) : pyStrip s ≠ "" := by
  intro h
  have hmem := mem_stripChars s.toList c hc hw
  have : stripChars s.toList = [] := by
    have := congrArg String.toList h
    simpa using this
  rw [this] at hmem
  cases hmem

/-- A list is a `isPrefixOf` of itself extended by anything. -/
theorem isPrefixOf_append_self (l t : List Char) : l.isPrefixOf (l ++ t) = true := by
  induction l with
  | nil => cases t <;> rfl
  | cons a as ih =>
    show (a == a && as.isPrefixOf (as ++ t)) = true
    rw [ih, beq_self_eq_true]
    rfl

/-- Containment holds at the front: `n` occurs in `n ++ t`. -/
theorem listContains_front (n t : List Char) : listContains (n ++ t) n = true := by
  cases hnt : n ++ t with
  | nil =>
    have hn : n = [] := by
      cases n with
      | nil => rfl
      | cons a as => simp at hnt
    rw [hn]
    rfl
  | cons c cs =>
    show (n.isPrefixOf (c :: cs) || listContains cs n) = true
    rw [← hnt, isPrefixOf_append_self]
    rfl

/-- Containment is preserved by prepending text. -/
theorem listContains_append_left (a b n : List Char) (h : listContains b n = true) :
    listContains (a ++ b) n = true := by
  induction a with
  | nil => exact h
  | cons x xs ih =>
    simp only [List.cons_append, listContains, Bool.or_eq_true]
    exact Or.inr ih

/-- String containment is preserved by prepending text. -/
theorem strContains_append_left (a b n : String) (h : strContains b n = true) :
    strContains (a ++ b) n = true := by
  show listContains (a ++ b).data n.data = true
  rw [String.data_append]
  exact listContains_append_left a.data b.data n.data h

/-- A string occurs in itself extended on the right. -/
theorem strContains_self_append (n t : String) : strContains (n ++ t) n = true := by
  show listContains (n ++ t).data n.data = true
  rw [String.data_append]
  exact listContains_front n.data t.data

/-- C3 (counterexample). When the idle timeout leaves an empty buffer and
the structured retry also returns an empty message, the code substitutes
the canned counsellor placeholder but keeps
`generationMode = "structured_retry"`; the claimed `degraded-fallback`
mode is not produced. -/
theorem empty_retry_stays_structured_retry :
    (streamLadder "counsellor" "" "m1" "" "" "" "" "").generation_mode
      = "structured_retry"
    ∧ (streamLadder "counsellor" "" "m1" "" "" "" "" "").generation_mode ≠ "fallback"
    ∧ (streamLadder "counsellor" "" "m1" "" "" "" "" "").full_text
      = "Could you share your top concern so I can address it directly?" := by
  refine ⟨rfl, by decide, rfl⟩

/-- C3 (amended). When the stream ends (or times out) with a blank buffer,
the turn is regenerated through the structured fallback and always marked
`structured_retry`; if the structured retry returns an empty message, a
role-appropriate canned placeholder is substituted into the turn text — the
text is never empty — but the mode remains `structured_retry`: the
`degraded-fallback` branch (`"fallback"`) is unreachable. -/
theorem fallback_ladder_behaviour (agent buffer mid rm rt ri re sj : String)
    (hagent : agent = "counsellor" ∨ agent = "student")
    (hbuf : pyStrip buffer = "") :
    (streamLadder agent buffer mid rm rt ri re sj).generation_mode
      = "structured_retry"
    ∧ (streamLadder agent buffer mid rm rt ri re sj).full_text ≠ ""
    ∧ (pyStrip rm = "" →
        strContains (streamLadder agent buffer mid rm rt ri re sj).full_text
          (cannedRetryMessage agent) = true) := by
  unfold streamLadder
  rw [if_neg (show ¬ pyStrip buffer ≠ "" from by simp [hbuf])]
  dsimp only
  rcases hagent with rfl | rfl
  · rw [if_neg (show ¬ ("counsellor" : String) = "student" from by decide)]
    by_cases hrm : pyStrip rm = ""
    · rw [if_pos hrm]
      have hc : ¬ pyStrip (cannedRetryMessage "counsellor") = "" := by decide
      rw [if_neg hc]
      refine ⟨rfl, ?_, fun _ => ?_⟩
      · show ¬ cannedRetryMessage "counsellor" = ""
        decide
      · show strContains (cannedRetryMessage "counsellor")
          (cannedRetryMessage "counsellor") = true
        decide
    · rw [if_neg hrm, pyStrip_idem rm, if_neg hrm]
      refine ⟨rfl, ?_, fun h => absurd h hrm⟩
      show ¬ pyStrip rm = ""
      exact hrm
  · rw [if_pos (show ("student" : String) = "student" from rfl)]
    have hmem : ('<' : Char) ∈ ("<thought>" ++ (if pyStrip rt = ""
        then "No internal thought captured" else pyStrip rt)
        ++ "</thought>\n<stats>" ++ sj ++ "</stats>\n<message>"
        ++ (if pyStrip rm = "" then cannedRetryMessage "student" else pyStrip rm)
        ++ "</message>\n<emotional_state>"
        ++ (if pyStrip re = "" then "calm" else pyStrip re)
        ++ "</emotional_state>\n<intent>"
        ++ (if pyStrip ri = "" then "No Intent detected" else pyStrip ri)
        ++ "</intent>").toList := by
      show ('<' : Char) ∈ String.data _
      simp only [String.data_append]
      exact List.mem_append_left _ (List.mem_append_left _ (List.mem_append_left _
        (List.mem_append_left _ (List.mem_append_left _ (List.mem_append_left _
        (List.mem_append_left _ (List.mem_append_left _ (List.mem_append_left _
        (List.mem_append_left _ (by decide))))))))))
    have hne := pyStrip_ne_empty _ '<' hmem (by decide)
    refine ⟨?_, ?_, ?_⟩
    · rw [if_neg hne]
    · rw [if_neg hne]
      show ¬ ("<thought>" ++ (if pyStrip rt = ""
          then "No internal thought captured" else pyStrip rt)
          ++ "</thought>\n<stats>" ++ sj ++ "</stats>\n<message>"
          ++ (if pyStrip rm = "" then cannedRetryMessage "student" else pyStrip rm)
          ++ "</message>\n<emotional_state>"
          ++ (if pyStrip re = "" then "calm" else pyStrip re)
          ++ "</emotional_state>\n<intent>"
          ++ (if pyStrip ri = "" then "No Intent detected" else pyStrip ri)
          ++ "</intent>") = ""
      intro h
      apply hne
      rw [h]
      decide
    · intro hrm
      rw [if_pos hrm] at hne ⊢
      rw [if_neg hne]
      show strContains ("<thought>" ++ (if pyStrip rt = ""
          then "No internal thought captured" else pyStrip rt)
          ++ "</thought>\n<stats>" ++ sj ++ "</stats>\n<message>"
          ++ cannedRetryMessage "student"
          ++ "</message>\n<emotional_state>"
          ++ (if pyStrip re = "" then "calm" else pyStrip re)
          ++ "</emotional_state>\n<intent>"
          ++ (if pyStrip ri = "" then "No Intent detected" else pyStrip ri)
          ++ "</intent>") (cannedRetryMessage "student") = true
      simp only [String.append_assoc]
      apply strContains_append_left
      apply strContains_append_left
      apply strContains_append_left
      apply strContains_append_left
      apply strContains_append_left
      exact strContains_self_append (cannedRetryMessage "student") _

/-- Witness for `fallback_ladder_behaviour` on a student turn with empty
buffer and empty retry message: the canned learner placeholder appears in
the regenerated turn text. -/
theorem fallback_ladder_behaviour_witness :
    strContains (streamLadder "student" "" "m2" "" "" "" "" "sj").full_text
      (cannedRetryMessage "student") = true :=
  (fallback_ladder_behaviour "student" "" "m2" "" "" "" "" "sj"
    (Or.inr rfl) rfl).2.2 rfl

/-- Witness for `negotiation_score_formula` at likelihood 70, trust 60,
concession 25, delta +5, winner text naming the counsellor. -/
theorem negotiation_score_formula_witness :
    0 ≤ negotiationScore 70 60 25 5 "Counsellor (student likely to enroll)"
    ∧ negotiationScore 70 60 25 5 "Counsellor (student likely to enroll)" ≤ 100 :=
  ⟨(negotiation_score_formula 70 60 25 5 "Counsellor (student likely to enroll)"
      (by norm_num) (by norm_num) (by norm_num) (by norm_num) (by norm_num)
      (by norm_num)).2.1,
   (negotiation_score_formula 70 60 25 5 "Counsellor (student likely to enroll)"
      (by norm_num) (by norm_num) (by norm_num) (by norm_num) (by norm_num)
      (by norm_num)).2.2⟩

/-- A loop state that is no longer `ongoing` absorbs the rest of the
script. -/
theorem runLoop_stop (s : LoopState) (script : List String)
    (h : s.deal_status ≠ "ongoing") : runLoop s script = s := by
  cases script with
  | nil => rfl
  | cons gm rest =>
    unfold runLoop
    rw [if_neg]
    simp [h]

/-- C4 (counterexample). Two consecutive prospect turns recovered by the
structured retry alone (`generation_mode = "structured_retry"`, not
`degraded-fallback`) already force `deal_status = "failed"`: the abort
counter counts every non-streamed turn. -/
theorem structured_retry_abort_counterexample :
    (runLoop { round := 1, max_rounds := 10, deal_status := "ongoing", failures := 0 }
        ["structured_retry", "structured_retry"]).deal_status = "failed"
    ∧ ("structured_retry" : String) ≠ "fallback" := by
  exact ⟨rfl, by decide⟩

/-- C4 (amended). The round loop forces `deal_status = "failed"` exactly
when two consecutive prospect turns are produced by any non-streamed path
(structured retry or degraded fallback); a single non-streamed turn
followed by a streamed one never aborts, and once the abort fires the loop
consumes no further rounds. -/
theorem degraded_abort_rule (s : LoopState) (script : List String)
    (hstatus : s.deal_status = "ongoing")
    (hbound : s.round + script.length ≤ s.max_rounds + 1) :
    ((runLoop s script).deal_status = "failed"
      ↔ hasConsecutiveFailure s.failures script = true)
    ∧ (∀ (s' : LoopState) (gm : String) (rest : List String),
        s'.deal_status = "failed" → runLoop s' (gm :: rest) = s') := by
  constructor
  · induction script generalizing s with
    | nil =>
      unfold runLoop hasConsecutiveFailure
      rw [hstatus]
      simp
    | cons gm rest ih =>
      have hround : s.round ≤ s.max_rounds := by
        simp only [List.length_cons] at hbound
        omega
      unfold runLoop
      rw [if_pos (by simp [hround, hstatus])]
      by_cases hgm : gm = "stream"
      · have hstep : loopStep s gm = ⟨s.round + 1, s.max_rounds, s.deal_status, 0⟩ := by
          simp [loopStep, stepStudentFailures, hgm]
        rw [hstep]
        unfold hasConsecutiveFailure
        rw [if_pos hgm]
        exact ih _ hstatus (by simp only [List.length_cons] at hbound; dsimp only; omega)
      · by_cases hf : s.failures + 1 ≥ 2
        · have hstep : loopStep s gm
              = ⟨s.round + 1, s.max_rounds, "failed", s.failures + 1⟩ := by
            simp [loopStep, stepStudentFailures, hgm, hf]
          rw [hstep, runLoop_stop _ rest (by simp)]
          unfold hasConsecutiveFailure
          rw [if_neg hgm, if_pos hf]
          simp
        · have hstep : loopStep s gm
              = ⟨s.round + 1, s.max_rounds, s.deal_status, s.failures + 1⟩ := by
            simp [loopStep, stepStudentFailures, hgm, hf]
          rw [hstep]
          unfold hasConsecutiveFailure
          rw [if_neg hgm, if_neg hf]
          exact ih _ hstatus (by simp only [List.length_cons] at hbound; dsimp only; omega)
  · intro s' gm rest h
    exact runLoop_stop s' (gm :: rest) (by simp [h])

/-- Witness for `degraded_abort_rule`: a streamed turn followed by two
structured-retry turns aborts the run. -/
theorem degraded_abort_rule_witness :
    (runLoop { round := 1, max_rounds := 10, deal_status := "ongoing", failures := 0 }
        ["stream", "structured_retry", "structured_retry"]).deal_status = "failed"
      ↔ hasConsecutiveFailure 0 ["stream", "structured_retry", "structured_retry"]
        = true :=
  (degraded_abort_rule
    { round := 1, max_rounds := 10, deal_status := "ongoing", failures := 0 }
    ["stream", "structured_retry", "structured_retry"] rfl (by norm_num)).1

/-- C8 (counterexample). A prospect turn finalized with a non-empty
rationale emits a `message_complete` event whose payload carries that
rationale verbatim (and a dedicated `student_thought` event as well): the
rationale is not stripped from the client-visible completion event. -/
theorem rationale_exposure_counterexample :
    (WsEvent.message_complete
        (finalizeTurn "student" "raw"
          { message := "I need to check with my family first."
            techniques := [], intent := "stall", confidence_score := 60
            emotional_state := "anxious"
            internal_thought := "I actually plan to ask for a bigger discount."
            updated_stats := {} }
          (some defaultInnerState) 1 "m7" "stream").1
      ∈ (finalizeTurn "student" "raw"
          { message := "I need to check with my family first."
            techniques := [], intent := "stall", confidence_score := 60
            emotional_state := "anxious"
            internal_thought := "I actually plan to ask for a bigger discount."
            updated_stats := {} }
          (some defaultInnerState) 1 "m7" "stream").2)
    ∧ (finalizeTurn "student" "raw"
        { message := "I need to check with my family first."
          techniques := [], intent := "stall", confidence_score := 60
          emotional_state := "anxious"
          internal_thought := "I actually plan to ask for a bigger discount."
          updated_stats := {} }
        (some defaultInnerState) 1 "m7" "stream").1.internal_thought
      = "I actually plan to ask for a bigger discount."
    ∧ ("I actually plan to ask for a bigger discount." : String) ≠ "" := by
  refine ⟨by decide, rfl, by decide⟩

/-- With a prospect rationale present, the emitted events are exactly the
`student_thought`, `intent_update` and `message_complete` triple. -/
theorem finalizeTurn_events (agent ft : String) (fields : ExtractedFields)
    (inner : Option StudentInnerState) (round : Int) (mid gm : String)
    (h : agent = "student" ∧ fields.internal_thought ≠ "") :
    (finalizeTurn agent ft fields inner round mid gm).2
      = WsEvent.student_thought round mid fields.internal_thought
          (finalizeTurn agent ft fields inner round mid gm).1.updated_stats
        :: [WsEvent.intent_update agent fields.intent,
            WsEvent.message_complete (finalizeTurn agent ft fields inner round mid gm).1] := by
  unfold finalizeTurn
  dsimp only
  rw [if_pos h]
  rfl

/-- C8 (amended). Every per-turn completion event carries the turn's
techniques, intent, confidence and emotion — and also carries the full
rationale (`internal_thought`) of the extracted fields; prospect turns with
a rationale additionally emit a dedicated `student_thought` event. The
rationale is stripped only from the copy appended to the session's internal
transcript (`spokenCopy`, main.py 2917-2920), not from the client-visible
events. -/
theorem completion_event_contents (agent full_text : String)
    (fields : ExtractedFields) (inner : Option StudentInnerState)
    (round : Int) (mid gm : String) :
    WsEvent.message_complete
        (finalizeTurn agent full_text fields inner round mid gm).1
      ∈ (finalizeTurn agent full_text fields inner round mid gm).2
    ∧ (finalizeTurn agent full_text fields inner round mid gm).1.techniques
      = fields.techniques
    ∧ (finalizeTurn agent full_text fields inner round mid gm).1.strategic_intent
      = fields.intent
    ∧ (finalizeTurn agent full_text fields inner round mid gm).1.confidence_score
      = fields.confidence_score
    ∧ (finalizeTurn agent full_text fields inner round mid gm).1.emotional_state
      = fields.emotional_state
    ∧ (finalizeTurn agent full_text fields inner round mid gm).1.internal_thought
      = fields.internal_thought
    ∧ (agent = "student" → fields.internal_thought ≠ "" →
        WsEvent.student_thought round mid fields.internal_thought
            (finalizeTurn agent full_text fields inner round mid gm).1.updated_stats
          ∈ (finalizeTurn agent full_text fields inner round mid gm).2)
    ∧ (spokenCopy (finalizeTurn agent full_text fields inner round mid gm).1).internal_thought
      = ""
    ∧ (spokenCopy (finalizeTurn agent full_text fields inner round mid gm).1).updated_stats
      = none := by
  refine ⟨?_, rfl, rfl, rfl, rfl, rfl, ?_, rfl, rfl⟩
  · exact List.mem_append_right _ (List.mem_cons_of_mem _ (List.mem_cons_self _ _))
  · intro hag hth
    rw [finalizeTurn_events agent full_text fields inner round mid gm ⟨hag, hth⟩]
    exact List.mem_cons_self _ _

/-- Witness for `completion_event_contents`: a concrete prospect turn whose
rationale also appears in a `student_thought` event. -/
theorem completion_event_contents_witness :
    WsEvent.student_thought 1 "m8" "thinking"
        (finalizeTurn "student" "raw"
          { message := "Is the fee negotiable?", techniques := [], intent := ""
            confidence_score := 60, emotional_state := "calm"
            internal_thought := "thinking", updated_stats := {} }
          (some defaultInnerState) 1 "m8" "stream").1.updated_stats
      ∈ (finalizeTurn "student" "raw"
          { message := "Is the fee negotiable?", techniques := [], intent := ""
            confidence_score := 60, emotional_state := "calm"
            internal_thought := "thinking", updated_stats := {} }
          (some defaultInnerState) 1 "m8" "stream").2 :=
  (completion_event_contents "student" "raw"
    { message := "Is the fee negotiable?", techniques := [], intent := ""
      confidence_score := 60, emotional_state := "calm"
      internal_thought := "thinking", updated_stats := {} }
    (some defaultInnerState) 1 "m8" "stream").2.2.2.2.2.2.1 rfl (by decide)

/-- C9 (counterexample). A streamed prospect turn is never classified for
role drift: a message the classifier flags as counsellor-like is finalized
verbatim and sent in the completion event. -/
theorem streamed_drift_counterexample :
    (finalizeTurn "student" "raw"
        { message := "As your counsellor, I can help you with placement and fees."
          techniques := [], intent := "", confidence_score := 60
          emotional_state := "calm", internal_thought := "", updated_stats := {} }
        (some defaultInnerState) 2 "m9" "stream").1.content
      = "As your counsellor, I can help you with placement and fees."
    ∧ _looks_like_student_role_drift
        "As your counsellor, I can help you with placement and fees." = true
    ∧ (finalizeTurn "student" "raw"
        { message := "As your counsellor, I can help you with placement and fees."
          techniques := [], intent := "", confidence_score := 60
          emotional_state := "calm", internal_thought := "", updated_stats := {} }
        (some defaultInnerState) 2 "m9" "stream").1.generation_mode = "stream" := by
  refine ⟨by decide, by decide, rfl⟩

/-- C9 (amended). The role-drift guard runs only inside the structured
retry path (`_retry_with_structured_json`, prospect branch); there, the
claimed ladder does hold: the returned payload's message is never one the
classifier flags — the first response is kept when clean, the rewrite is
kept when it repairs the drift, and the canned learner fallback (itself
unflagged) is substituted when both drift. -/
theorem retry_drift_guard (p₁ p₂ : RetryPayload) :
    _looks_like_student_role_drift (pyStrip (retryStudentPayload p₁ p₂).message)
      = false
    ∧ (_looks_like_student_role_drift (pyStrip p₁.message) = false →
        retryStudentPayload p₁ p₂ = p₁)
    ∧ (_looks_like_student_role_drift (pyStrip p₁.message) = true →
        _looks_like_student_role_drift (pyStrip p₂.message) = false →
        retryStudentPayload p₁ p₂ = p₂)
    ∧ (_looks_like_student_role_drift (pyStrip p₁.message) = true →
        _looks_like_student_role_drift (pyStrip p₂.message) = true →
        retryStudentPayload p₁ p₂ = studentRetryFallback) := by
  unfold retryStudentPayload
  by_cases h₁ : _looks_like_student_role_drift (pyStrip p₁.message) = true
  · rw [if_pos h₁]
    by_cases h₂ : _looks_like_student_role_drift (pyStrip p₂.message) = true
    · rw [if_pos h₂]
      refine ⟨by decide, ?_, ?_, fun _ _ => rfl⟩
      · intro hc
        rw [h₁] at hc
        cases hc
      · intro _ hc
        rw [h₂] at hc
        cases hc
    · rw [if_neg h₂]
      refine ⟨?_, ?_, fun _ _ => rfl, ?_⟩
      · exact Bool.not_eq_true _ ▸ eq_false_of_ne_true h₂
      · intro hc
        rw [h₁] at hc
        cases hc
      · intro _ hc
        rw [eq_false_of_ne_true h₂] at hc
        cases hc
  · rw [if_neg h₁]
    refine ⟨Bool.not_eq_true _ ▸ eq_false_of_ne_true h₁, fun _ => rfl, ?_, ?_⟩
    · intro hc
      rw [eq_false_of_ne_true h₁] at hc
      cases hc
    · intro hc
      rw [eq_false_of_ne_true h₁] at hc
      cases hc

/-- Witness for `retry_drift_guard`: a drifting first response repaired by
a clean rewrite is replaced by the rewrite. -/
theorem retry_drift_guard_witness :
    retryStudentPayload
        { message := "You should enroll today.", internal_thought := ""
          updated_stats := {}, emotional_state := "calm", intent := ""
          confidence_score := 50, techniques := [] }
        { message := "Is the fee negotiable?", internal_thought := ""
          updated_stats := {}, emotional_state := "calm", intent := ""
          confidence_score := 50, techniques := [] }
      = { message := "Is the fee negotiable?", internal_thought := ""
          updated_stats := {}, emotional_state := "calm", intent := ""
          confidence_score := 50, techniques := [] } :=
  (retry_drift_guard
    { message := "You should enroll today.", internal_thought := ""
      updated_stats := {}, emotional_state := "calm", intent := ""
      confidence_score := 50, techniques := [] }
    { message := "Is the fee negotiable?", internal_thought := ""
      updated_stats := {}, emotional_state := "calm", intent := ""
      confidence_score := 50, techniques := [] }).2.2.1 (by decide) (by decide)

end Closewire
